import Mathlib

/-!
Verification of the SPL auction backend's live-bidding engine.

The socket handlers of the server (`start_player`, `place_bid`, `undo_bid`,
`toggle_pause`, `sell_player`, `unsell_player`, `reset_round`) are embedded
here as pure functions over the per-room bidding session record, following
the handler bodies line by line.  Event payload fields that may be absent
(`undefined`/`null` in the source) are `Option`s; the JavaScript truthiness
test used by the guards (`!teamId`, `currentPlayerId && leadingTeamId`) is
modelled by `jsTruthy`, which is false exactly on an absent or empty string.
Handlers that return early without touching the session yield `none`;
handlers that additionally trigger a durable settlement write return the
settlement payload alongside the new session state.
-/

/-- The five round statuses of a bidding session. -/
inductive Status where
  | IDLE
  | ACTIVE
  | PAUSED
  | SOLD
  | UNSOLD
deriving DecidableEq

/-- One undo-stack entry: the bid value and leader saved by `place_bid`
before it overwrites them (`{ bid: state.currentBid, leader: state.leadingTeamId }`). -/
structure HistEntry where
  bid : Int
  leader : Option String
deriving DecidableEq

/-- The per-room bidding session record held in the room state table. -/
structure Session where
  currentBid : Int
  leadingTeamId : Option String
  currentPlayerId : Option String
  status : Status
  bidHistory : List HistEntry
deriving DecidableEq

/-- The session installed by `getRoomState` on first reference to a room:
`{ currentBid: 0, leadingTeamId: null, currentPlayerId: null, status: IDLE, bidHistory: [] }`. -/
def freshSession : Session :=
  { currentBid := 0
    leadingTeamId := none
    currentPlayerId := none
    status := Status.IDLE
    bidHistory := [] }

/-- JavaScript truthiness of a nullable string field: `null`/`undefined` and
the empty string are falsy, every other string is truthy. -/
def jsTruthy : Option String → Bool
  | none => false
  | some v => if v = "" then false else true

/-- The `start_player` handler: sets `currentBid = basePrice`,
`leadingTeamId = null`, `currentPlayerId = playerId`, `status = ACTIVE`,
`bidHistory = []`, with no guard on the prior state. -/
def start_player (playerId : Option String) (basePrice : Int) (s : Session) : Session :=
  { s with
    currentBid := basePrice
    leadingTeamId := none
    currentPlayerId := playerId
    status := Status.ACTIVE
    bidHistory := [] }

/-- The `place_bid` handler.  It first rejects malformed events
(`!auctionId || !teamId || typeof amount !== 'number'`), then rejects low
bids (`amount < currentBid` when no leader, `amount <= currentBid` when a
leader exists), and otherwise pushes the previous `(bid, leader)` pair onto
`bidHistory` and installs the new amount and leader.  `none` is the early
`return`: the session is left untouched and nothing is broadcast. -/
def place_bid (auctionId teamId : Option String) (amount : Option Int)
    (s : Session) : Option Session :=
  match auctionId, teamId, amount with
  | some aid, some tid, some amt =>
    if aid = "" ∨ tid = "" then none
    else if (match s.leadingTeamId with
             | none => decide (amt < s.currentBid)
             | some _ => decide (amt ≤ s.currentBid)) then none
    else some { s with
      bidHistory := s.bidHistory ++ [{ bid := s.currentBid, leader := s.leadingTeamId }]
      currentBid := amt
      leadingTeamId := some tid }
  | _, _, _ => none

/-- The room session after a `place_bid` event has been handled: the updated
session on acceptance, the untouched one on rejection (the handler's early
`return` fires before any mutation). -/
def sessionAfterBid (auctionId teamId : Option String) (amount : Option Int)
    (s : Session) : Session :=
  (place_bid auctionId teamId amount s).getD s

/-- The `undo_bid` handler: when `bidHistory` is non-empty, pop its last
entry and restore `currentBid` and `leadingTeamId` from it; otherwise do
nothing. -/
def undo_bid (s : Session) : Session :=
  match s.bidHistory.getLast? with
  | none => s
  | some prev =>
    { s with
      currentBid := prev.bid
      leadingTeamId := prev.leader
      bidHistory := s.bidHistory.dropLast }

/-- The `toggle_pause` handler:
`state.status = state.status === 'PAUSED' ? 'ACTIVE' : 'PAUSED'`. -/
def toggle_pause (s : Session) : Session :=
  { s with status := if s.status = Status.PAUSED then Status.ACTIVE else Status.PAUSED }

/-- The settlement write issued by `sell_player`: mark the player sold to
the team at the final price and charge the team. -/
structure SaleCommit where
  playerId : String
  teamId : String
  soldPrice : Int
deriving DecidableEq

/-- The `sell_player` handler: when both `currentPlayerId` and
`leadingTeamId` are truthy it sets `status = SOLD`, clears `bidHistory`,
and triggers the settlement write; otherwise nothing happens. -/
def sell_player (s : Session) : Session × Option SaleCommit :=
  match s.currentPlayerId, s.leadingTeamId with
  | some pid, some tid =>
    if pid = "" ∨ tid = "" then (s, none)
    else ({ s with status := Status.SOLD, bidHistory := [] },
          some { playerId := pid, teamId := tid, soldPrice := s.currentBid })
  | _, _ => (s, none)

/-- The `unsell_player` handler: when `currentPlayerId` is truthy it sets
`status = UNSOLD` and triggers the write marking that player unsold;
otherwise nothing happens. -/
def unsell_player (s : Session) : Session × Option String :=
  match s.currentPlayerId with
  | some pid =>
    if pid = "" then (s, none)
    else ({ s with status := Status.UNSOLD }, some pid)
  | none => (s, none)

/-- The `reset_round` handler of the current server iteration:
`Object.assign(state, { currentBid: 0, leadingTeamId: null, currentPlayerId: null,
status: 'IDLE', bidHistory: [] })`. -/
def reset_round (s : Session) : Session :=
  { s with
    currentBid := 0
    leadingTeamId := none
    currentPlayerId := none
    status := Status.IDLE
    bidHistory := [] }

/-- The `reset_round` handler of the older `server.js` iteration, which
assigns the four scalar fields but never touches `bidHistory`. -/
def reset_round_legacy (s : Session) : Session :=
  { s with
    currentBid := 0
    leadingTeamId := none
    currentPlayerId := none
    status := Status.IDLE }

/-- A `place_bid` event payload as received from a client. -/
structure BidEvent where
  auctionId : Option String
  teamId : Option String
  amount : Option Int

/-- Net effect on the session of handling a sequence of `place_bid` events
in arrival order (each accepted event updates the session, each rejected
one leaves it alone). -/
def applyBids (s : Session) (evs : List BidEvent) : Session :=
  evs.foldl (fun st e => sessionAfterBid e.auctionId e.teamId e.amount st) s

/-! ### Helper lemmas about `place_bid` -/

/-- On a well-formed event the malformedness guard falls away and
`place_bid` reduces to the low-bid check followed by the update. -/
theorem place_bid_wf (aid tid : String) (amt : Int) (s : Session)
    (haid : aid ≠ "") (htid : tid ≠ "") :
    place_bid (some aid) (some tid) (some amt) s =
      if (match s.leadingTeamId with
          | none => decide (amt < s.currentBid)
          | some _ => decide (amt ≤ s.currentBid)) then none
      else some { s with
        bidHistory := s.bidHistory ++ [{ bid := s.currentBid, leader := s.leadingTeamId }]
        currentBid := amt
        leadingTeamId := some tid } := by
  simp only [place_bid]
  rw [if_neg (by simp [haid, htid])]

/-- A well-formed bid is accepted exactly under the spec's ordering rule. -/
theorem place_bid_isSome_iff (aid tid : String) (amt : Int) (s : Session)
    (haid : aid ≠ "") (htid : tid ≠ "") :
    (place_bid (some aid) (some tid) (some amt) s).isSome = true ↔
      (s.leadingTeamId = none ∧ s.currentBid ≤ amt) ∨
      (s.leadingTeamId ≠ none ∧ s.currentBid < amt) := by
  rw [place_bid_wf aid tid amt s haid htid]
  rcases hL : s.leadingTeamId with _ | t
  · by_cases h : amt < s.currentBid <;> simp [hL, h] <;> omega
  · by_cases h : amt ≤ s.currentBid <;> simp [hL, h] <;> omega

/-- Shape of the updated session on acceptance. -/
theorem place_bid_eq_some (aid tid : Option String) (amt : Option Int)
    (s s' : Session) (h : place_bid aid tid amt s = some s') :
    ∃ a t m, aid = some a ∧ tid = some t ∧ amt = some m ∧
      s' = { s with
        bidHistory := s.bidHistory ++ [{ bid := s.currentBid, leader := s.leadingTeamId }]
        currentBid := m
        leadingTeamId := some t } ∧
      (match s.leadingTeamId with
       | none => s.currentBid ≤ m
       | some _ => s.currentBid < m) := by
  rcases aid with _ | a <;> rcases tid with _ | t <;> rcases amt with _ | m <;>
    simp [place_bid] at h
  rcases h with ⟨⟨ha, ht⟩, h⟩
  refine ⟨a, t, m, rfl, rfl, rfl, ?_⟩
  rcases hL : s.leadingTeamId with _ | u <;> rw [hL] at h <;> simp_all

/-- `jsTruthy` is false exactly on an absent or empty string. -/
theorem jsTruthy_eq_false (o : Option String) :
    jsTruthy o = false ↔ o = none ∨ o = some "" := by
  rcases o with _ | v
  · simp [jsTruthy]
  · by_cases h : v = "" <;> simp [jsTruthy, h]

/-! ### Claims -/

/-- Claim C1: a well-formed `place_bid` is accepted exactly when, with no
leader, the amount is at least `currentBid` and, with a leader, strictly
above it; a bid equal to `currentBid` is accepted only with no leader; a
rejected bid leaves the session unchanged. -/
theorem place_bid_acceptance (s : Session) (aid tid : String) (amt : Int)
    (haid : aid ≠ "") (htid : tid ≠ "") :
    ((place_bid (some aid) (some tid) (some amt) s).isSome = true ↔
      (s.leadingTeamId = none ∧ s.currentBid ≤ amt) ∨
      (s.leadingTeamId ≠ none ∧ s.currentBid < amt)) ∧
    (amt = s.currentBid →
      ((place_bid (some aid) (some tid) (some amt) s).isSome = true ↔
        s.leadingTeamId = none)) ∧
    (place_bid (some aid) (some tid) (some amt) s = none →
      sessionAfterBid (some aid) (some tid) (some amt) s = s) := by
  refine ⟨place_bid_isSome_iff aid tid amt s haid htid, ?_, ?_⟩
  · intro he
    rw [place_bid_isSome_iff aid tid amt s haid htid]
    subst he
    constructor
    · rintro (⟨h1, _⟩ | ⟨_, h2⟩)
      · exact h1
      · omega
    · intro h1
      exact Or.inl ⟨h1, le_refl _⟩
  · intro hn
    simp [sessionAfterBid, hn]

/-- Witness for C1: on a leaderless session at `currentBid = 100`, a
well-formed bid of exactly 100 is accepted. -/
theorem place_bid_acceptance_witness :
    (place_bid (some "a1") (some "t1") (some 100)
      { currentBid := 100, leadingTeamId := none, currentPlayerId := some "p1",
        status := Status.ACTIVE, bidHistory := [] }).isSome = true :=
  ((place_bid_acceptance
      { currentBid := 100, leadingTeamId := none, currentPlayerId := some "p1",
        status := Status.ACTIVE, bidHistory := [] }
      "a1" "t1" 100 (by decide) (by decide)).1).mpr (Or.inl ⟨rfl, le_refl 100⟩)

/-- Claim C4: a malformed `place_bid` event (missing or empty team id, or
non-numeric amount) is rejected, and `currentBid`, `leadingTeamId`,
`bidHistory` and `status` are all unchanged afterwards. -/
theorem place_bid_malformed (aid tid : Option String) (amt : Option Int)
    (s : Session) (h : jsTruthy tid = false ∨ amt = none) :
    place_bid aid tid amt s = none ∧
    (sessionAfterBid aid tid amt s).currentBid = s.currentBid ∧
    (sessionAfterBid aid tid amt s).leadingTeamId = s.leadingTeamId ∧
    (sessionAfterBid aid tid amt s).bidHistory = s.bidHistory ∧
    (sessionAfterBid aid tid amt s).status = s.status := by
  have hn : place_bid aid tid amt s = none := by
    rcases h with h | h
    · rcases (jsTruthy_eq_false tid).mp h with rfl | rfl
      · rcases aid with _ | a <;> rcases amt with _ | m <;> simp [place_bid]
      · rcases aid with _ | a <;> rcases amt with _ | m <;> simp [place_bid]
    · subst h
      rcases aid with _ | a <;> rcases tid with _ | t <;> simp [place_bid]
  exact ⟨hn, by simp [sessionAfterBid, hn], by simp [sessionAfterBid, hn],
         by simp [sessionAfterBid, hn], by simp [sessionAfterBid, hn]⟩

/-- Witness for C4: a bid without a team id is dropped. -/
theorem place_bid_malformed_witness :
    place_bid (some "a1") none (some 500) freshSession = none :=
  (place_bid_malformed (some "a1") none (some 500) freshSession (Or.inl rfl)).1

/-- Claim C2: `reset_round` returns any session to exactly the value of a
freshly created one. -/
theorem reset_round_eq_fresh (s : Session) : reset_round s = freshSession := rfl

/-- The older `server.js` iteration's reset assigns only the four scalar
fields, so its result keeps whatever undo stack the session had. -/
theorem reset_round_legacy_keeps_history (s : Session) :
    (reset_round_legacy s).bidHistory = s.bidHistory := rfl

/-- Claim C7: `start_player` puts the session in exactly the state
`{currentBid = basePrice, leadingTeamId = null, currentPlayerId = playerId,
status = ACTIVE, bidHistory = []}`, whatever held before. -/
theorem start_player_resets (s : Session) (playerId : Option String) (basePrice : Int) :
    start_player playerId basePrice s =
      { currentBid := basePrice
        leadingTeamId := none
        currentPlayerId := playerId
        status := Status.ACTIVE
        bidHistory := [] } := rfl

/-- Counterexample to claim C3: in status `IDLE`, `toggle_pause` is not a
no-op — it moves the session to `PAUSED`. -/
theorem toggle_pause_idle_changes :
    toggle_pause { currentBid := 0, leadingTeamId := none, currentPlayerId := none,
                   status := Status.IDLE, bidHistory := [] } ≠
      { currentBid := 0, leadingTeamId := none, currentPlayerId := none,
        status := Status.IDLE, bidHistory := [] } := by decide

/-- Claim C3 amended: `toggle_pause` maps `PAUSED` to `ACTIVE` and every
other status (`ACTIVE`, `IDLE`, `SOLD`, `UNSOLD`) to `PAUSED`; no other
field is modified in either case. -/
theorem toggle_pause_behaviour (s : Session) :
    (s.status = Status.PAUSED → toggle_pause s = { s with status := Status.ACTIVE }) ∧
    (s.status ≠ Status.PAUSED → toggle_pause s = { s with status := Status.PAUSED }) := by
  constructor <;> intro h <;> simp [toggle_pause, h]

/-- Witness for the amended C3: both branches at concrete sessions. -/
theorem toggle_pause_behaviour_witness :
    toggle_pause { currentBid := 5, leadingTeamId := some "t1", currentPlayerId := some "p1",
                   status := Status.PAUSED, bidHistory := [] } =
      { currentBid := 5, leadingTeamId := some "t1", currentPlayerId := some "p1",
        status := Status.ACTIVE, bidHistory := [] } ∧
    toggle_pause { currentBid := 0, leadingTeamId := none, currentPlayerId := none,
                   status := Status.SOLD, bidHistory := [] } =
      { currentBid := 0, leadingTeamId := none, currentPlayerId := none,
        status := Status.PAUSED, bidHistory := [] } :=
  ⟨(toggle_pause_behaviour _).1 rfl, (toggle_pause_behaviour _).2 (by decide)⟩

/-- Claim C5: `undo_bid` on an empty history is the identity (so repeated
calls change nothing), and it exactly reverses the most recent accepted
`place_bid`: applying it to the accepted result gives back the prior
session, `status` included. -/
theorem undo_bid_reverses :
    (∀ s : Session, s.bidHistory = [] → undo_bid s = s) ∧
    (∀ (s s' : Session) (aid tid : Option String) (amt : Option Int),
      place_bid aid tid amt s = some s' → undo_bid s' = s) := by
  constructor
  · intro s h
    simp [undo_bid, h]
  · intro s s' aid tid amt h
    obtain ⟨a, t, m, _, _, _, hs', _⟩ := place_bid_eq_some aid tid amt s s' h
    subst hs'
    simp [undo_bid, List.getLast?_concat, List.dropLast_concat]

/-- Witness for C5: the empty-history no-op, and the exact reversal of an
accepted raise from 100 to 150. -/
theorem undo_bid_reverses_witness :
    undo_bid { currentBid := 0, leadingTeamId := none, currentPlayerId := none,
               status := Status.IDLE, bidHistory := [] } =
      { currentBid := 0, leadingTeamId := none, currentPlayerId := none,
        status := Status.IDLE, bidHistory := [] } ∧
    undo_bid { currentBid := 150, leadingTeamId := some "t2", currentPlayerId := some "p1",
               status := Status.ACTIVE,
               bidHistory := [{ bid := 100, leader := some "t1" }] } =
      { currentBid := 100, leadingTeamId := some "t1", currentPlayerId := some "p1",
        status := Status.ACTIVE, bidHistory := [] } :=
  ⟨undo_bid_reverses.1 _ rfl,
   undo_bid_reverses.2
     { currentBid := 100, leadingTeamId := some "t1", currentPlayerId := some "p1",
       status := Status.ACTIVE, bidHistory := [] }
     _ (some "a1") (some "t2") (some 150) (by decide)⟩

/-- Claim C6: `sell_player` with `currentPlayerId` or `leadingTeamId` unset
leaves the session unchanged and triggers no settlement write; with both
set it sets `status = SOLD`, clears `bidHistory`, and settles the sale of
the current player to the leading team at `currentBid`. -/
theorem sell_player_spec (s : Session) :
    (jsTruthy s.currentPlayerId = false ∨ jsTruthy s.leadingTeamId = false →
      sell_player s = (s, none)) ∧
    (∀ pid tid, s.currentPlayerId = some pid → s.leadingTeamId = some tid →
      jsTruthy s.currentPlayerId = true → jsTruthy s.leadingTeamId = true →
      sell_player s = ({ s with status := Status.SOLD, bidHistory := [] },
        some { playerId := pid, teamId := tid, soldPrice := s.currentBid })) := by
  constructor
  · intro h
    rcases hp : s.currentPlayerId with _ | p
    · simp [sell_player, hp]
    · rcases hl : s.leadingTeamId with _ | t
      · simp [sell_player, hp, hl]
      · rw [hp, hl] at h
        have hpt : p = "" ∨ t = "" := by
          rcases h with h | h
          · left
            rcases (jsTruthy_eq_false _).mp h with h2 | h2 <;> simp_all
          · right
            rcases (jsTruthy_eq_false _).mp h with h2 | h2 <;> simp_all
        simp [sell_player, hp, hl, hpt]
  · intro pid tid hp hl htp htl
    have hpne : pid ≠ "" := by
      intro he
      rw [hp, he] at htp
      simp [jsTruthy] at htp
    have htne : tid ≠ "" := by
      intro he
      rw [hl, he] at htl
      simp [jsTruthy] at htl
    simp [sell_player, hp, hl, hpne, htne]

/-- Witness for C6: no leader means no sale; a led round settles to the
leading team at the current bid. -/
theorem sell_player_spec_witness :
    sell_player { currentBid := 200, leadingTeamId := none, currentPlayerId := some "p1",
                  status := Status.ACTIVE, bidHistory := [] } =
      ({ currentBid := 200, leadingTeamId := none, currentPlayerId := some "p1",
         status := Status.ACTIVE, bidHistory := [] }, none) ∧
    sell_player { currentBid := 200, leadingTeamId := some "t1", currentPlayerId := some "p1",
                  status := Status.ACTIVE, bidHistory := [{ bid := 100, leader := none }] } =
      ({ currentBid := 200, leadingTeamId := some "t1", currentPlayerId := some "p1",
         status := Status.SOLD, bidHistory := [] },
       some { playerId := "p1", teamId := "t1", soldPrice := 200 }) :=
  ⟨(sell_player_spec _).1 (Or.inr rfl),
   (sell_player_spec _).2 "p1" "t1" rfl rfl (by decide) (by decide)⟩

/-- Claim C9: with `currentPlayerId` set, `unsell_player` sets `status` to
`UNSOLD` and leaves every other field — in particular `currentPlayerId` and
`leadingTeamId` — unchanged; with it unset, the whole session is unchanged
and no write is triggered. -/
theorem unsell_player_spec (s : Session) :
    (jsTruthy s.currentPlayerId = false → unsell_player s = (s, none)) ∧
    (∀ pid, s.currentPlayerId = some pid → jsTruthy s.currentPlayerId = true →
      unsell_player s = ({ s with status := Status.UNSOLD }, some pid) ∧
      (unsell_player s).1.currentPlayerId = s.currentPlayerId ∧
      (unsell_player s).1.leadingTeamId = s.leadingTeamId) := by
  constructor
  · intro h
    rcases (jsTruthy_eq_false _).mp h with hp | hp <;> simp [unsell_player, hp]
  · intro pid hp htp
    have hpne : pid ≠ "" := by
      intro he
      rw [hp, he] at htp
      simp [jsTruthy] at htp
    refine ⟨by simp [unsell_player, hp, hpne], ?_, ?_⟩ <;>
      simp [unsell_player, hp, hpne]

/-- Witness for C9: the pass branch on a led round, and the no-op with no
current player. -/
theorem unsell_player_spec_witness :
    unsell_player { currentBid := 80, leadingTeamId := some "t1", currentPlayerId := none,
                    status := Status.ACTIVE, bidHistory := [] } =
      ({ currentBid := 80, leadingTeamId := some "t1", currentPlayerId := none,
         status := Status.ACTIVE, bidHistory := [] }, none) ∧
    unsell_player { currentBid := 80, leadingTeamId := some "t1", currentPlayerId := some "p1",
                    status := Status.ACTIVE, bidHistory := [] } =
      ({ currentBid := 80, leadingTeamId := some "t1", currentPlayerId := some "p1",
         status := Status.UNSOLD, bidHistory := [] }, some "p1") :=
  ⟨(unsell_player_spec _).1 rfl,
   ((unsell_player_spec _).2 "p1" rfl (by decide)).1⟩

/-- Handling one `place_bid` event never lowers `currentBid`. -/
theorem sessionAfterBid_mono (aid tid : Option String) (amt : Option Int) (s : Session) :
    s.currentBid ≤ (sessionAfterBid aid tid amt s).currentBid := by
  rcases h : place_bid aid tid amt s with _ | s'
  · simp [sessionAfterBid, h]
  · obtain ⟨a, t, m, _, _, _, hs', hord⟩ := place_bid_eq_some aid tid amt s s' h
    subst hs'
    rcases hL : s.leadingTeamId with _ | u <;> rw [hL] at hord
    · have hord2 : s.currentBid ≤ m := hord
      simpa [sessionAfterBid, h] using hord2
    · have hord2 : s.currentBid < m := hord
      simpa [sessionAfterBid, h] using le_of_lt hord2

/-- Claim C8: over any sequence of `place_bid` events (accepted ones update
the session, rejected ones leave it alone) `currentBid` never decreases,
and an accepted bid placed while a leader exists strictly increases it. -/
theorem currentBid_monotone :
    (∀ (s : Session) (evs : List BidEvent),
      s.currentBid ≤ (applyBids s evs).currentBid) ∧
    (∀ (s s' : Session) (aid tid : Option String) (amt : Option Int),
      place_bid aid tid amt s = some s' →
      s.currentBid ≤ s'.currentBid ∧
      (s.leadingTeamId ≠ none → s.currentBid < s'.currentBid)) := by
  constructor
  · intro s evs
    induction evs generalizing s with
    | nil => simp [applyBids]
    | cons e t ih =>
      have hstep : applyBids s (e :: t) =
          applyBids (sessionAfterBid e.auctionId e.teamId e.amount s) t := rfl
      rw [hstep]
      exact le_trans (sessionAfterBid_mono _ _ _ _) (ih _)
  · intro s s' aid tid amt h
    obtain ⟨a, t, m, _, _, _, hs', hord⟩ := place_bid_eq_some aid tid amt s s' h
    subst hs'
    rcases hL : s.leadingTeamId with _ | u <;> rw [hL] at hord
    · have hord2 : s.currentBid ≤ m := hord
      exact ⟨hord2, fun hne => absurd rfl hne⟩
    · have hord2 : s.currentBid < m := hord
      exact ⟨le_of_lt hord2, fun _ => hord2⟩

/-- Witness for C8: with leader `t1` at 100, a bid of 150 is accepted and
strictly raises `currentBid`. -/
theorem currentBid_monotone_witness :
    place_bid (some "a1") (some "t2") (some 150)
      { currentBid := 100, leadingTeamId := some "t1", currentPlayerId := some "p1",
        status := Status.ACTIVE, bidHistory := [] } =
      some { currentBid := 150, leadingTeamId := some "t2", currentPlayerId := some "p1",
             status := Status.ACTIVE, bidHistory := [{ bid := 100, leader := some "t1" }] } ∧
    (100 : Int) ≤ 150 ∧ ((some "t1" : Option String) ≠ none → (100 : Int) < 150) := by
  have h : place_bid (some "a1") (some "t2") (some 150)
      { currentBid := 100, leadingTeamId := some "t1", currentPlayerId := some "p1",
        status := Status.ACTIVE, bidHistory := [] } =
      some { currentBid := 150, leadingTeamId := some "t2", currentPlayerId := some "p1",
             status := Status.ACTIVE, bidHistory := [{ bid := 100, leader := some "t1" }] } := by
    decide
  exact ⟨h, currentBid_monotone.2 _ _ _ _ _ h⟩

/-- Claim C10: `place_bid` neither reads nor writes `status`: replacing the
status by any value commutes with the handler (so the accept/reject
decision and the updated fields are the same for every status), and an
accepted bid keeps the status it found. -/
theorem place_bid_status_blind :
    (∀ (aid tid : Option String) (amt : Option Int) (s : Session) (st : Status),
      place_bid aid tid amt { s with status := st } =
        (place_bid aid tid amt s).map (fun r => { r with status := st })) ∧
    (∀ (aid tid : Option String) (amt : Option Int) (s s' : Session),
      place_bid aid tid amt s = some s' → s'.status = s.status) := by
  constructor
  · intro aid tid amt s st
    rcases aid with _ | a
    · simp [place_bid]
    rcases tid with _ | t
    · simp [place_bid]
    rcases amt with _ | m
    · simp [place_bid]
    by_cases hg : a = "" ∨ t = ""
    · simp [place_bid, hg]
    · rcases hL : s.leadingTeamId with _ | u
      · by_cases hc : m < s.currentBid <;> simp [place_bid, hg, hL, hc]
      · by_cases hc : m ≤ s.currentBid <;> simp [place_bid, hg, hL, hc]
  · intro aid tid amt s s' h
    obtain ⟨a, t, m, _, _, _, hs', _⟩ := place_bid_eq_some aid tid amt s s' h
    subst hs'
    rfl

/-- Witness for C10: a bid passing the ordering check is accepted while the
round is `PAUSED`, and the resulting status is still `PAUSED`. -/
theorem place_bid_status_blind_witness :
    place_bid (some "a1") (some "t1") (some 50)
      { currentBid := 50, leadingTeamId := none, currentPlayerId := some "p1",
        status := Status.PAUSED, bidHistory := [] } =
      some { currentBid := 50, leadingTeamId := some "t1", currentPlayerId := some "p1",
             status := Status.PAUSED, bidHistory := [{ bid := 50, leader := none }] } ∧
    ({ currentBid := 50, leadingTeamId := some "t1", currentPlayerId := some "p1",
       status := Status.PAUSED, bidHistory := [{ bid := 50, leader := none }] } : Session).status =
      ({ currentBid := 50, leadingTeamId := none, currentPlayerId := some "p1",
         status := Status.PAUSED, bidHistory := [] } : Session).status := by
  have h : place_bid (some "a1") (some "t1") (some 50)
      { currentBid := 50, leadingTeamId := none, currentPlayerId := some "p1",
        status := Status.PAUSED, bidHistory := [] } =
      some { currentBid := 50, leadingTeamId := some "t1", currentPlayerId := some "p1",
             status := Status.PAUSED, bidHistory := [{ bid := 50, leader := none }] } := by
    decide
  exact ⟨h, place_bid_status_blind.2 _ _ _ _ _ h⟩
